import Mathlib

/-!
Verification of the batch-orchestration core of the `linkedin_private_api`
repository (files `api.py`, `index.py`, `main.py`).  Python functions are
shallowly embedded as Lean definitions: pure functions become Lean
functions, HTTP calls become explicit response oracles passed as inputs,
fallible code returns `Option`, and the spreadsheet-backed credential pool
becomes a list of row records.
-/

namespace LinkedinScraper

/-- Python `str.strip` restricted to a character predicate: drop matching
characters from both ends of the string. -/
def pyStripChars (p : Char → Bool) (s : String) : String :=
  String.mk (((s.data.dropWhile p).reverse.dropWhile p).reverse)

/-- Python `str.strip()` (whitespace on both ends).  Python strips Unicode
whitespace; the embedding uses `Char.isWhitespace`, which agrees on the
ASCII data these scripts handle. -/
def pyStrip (s : String) : String :=
  pyStripChars (fun c => c.isWhitespace) s

/-- Python `.strip('"')`: drop double-quote characters from both ends, as
applied to cookie values in `parse_cookie`. -/
def stripQuotes (s : String) : String :=
  pyStripChars (fun c => c = '"') s

/-- Python `str.lower()`, written over the character list (ASCII
lowering, which agrees with Python on the ASCII status strings these
sheets hold). -/
def pyLower (s : String) : String :=
  String.mk (s.data.map Char.toLower)

/-- `normalize_status` from `api.py` line 155 / `main.py` line 82 /
`index.py` line 71: NFKD-normalize, strip, lowercase.  The
`unicodedata.normalize("NFKD", ...)` step is modelled as the identity; it
is the identity on the ASCII status strings ("verified" etc.) compared
against. -/
def normalize_status (status : String) : String :=
  pyLower (pyStrip status)

/-- Python truthiness of an optional string (`if li_at and jsessionid`):
`None` and the empty string are falsy. -/
def truthy : Option String → Bool
  | none => false
  | some s => !decide (s = "")

/-- `daily_use = int(daily_use_str) if daily_use_str else 0`, with the
surrounding `except ValueError: daily_use = 0` from `api.py` lines
201-205.  Python `int` accepts an optional sign; `String.toInt?` agrees on
the plain decimal strings a usage column holds (a leading `+`, which
Python would accept, parses as 0 here — unreachable for a counter the
code itself writes back as `str(n)`). -/
def digitsVal (ds : List Char) : Nat :=
  ds.foldl (fun acc c => acc * 10 + (c.toNat - Char.toNat '0')) 0

/-- Python `int(s)` on an already-stripped decimal string, as an
`Option`: an optional minus sign followed by at least one digit.
(Python additionally accepts a leading `+` and digit-group underscores;
neither occurs in a usage counter the code itself writes back as
`str(n)`.) -/
def pyInt (s : String) : Option Int :=
  match s.data with
  | '-' :: ds =>
    if !ds.isEmpty && ds.all Char.isDigit then some (-(digitsVal ds : Int))
    else none
  | ds =>
    if !ds.isEmpty && ds.all Char.isDigit then some ((digitsVal ds : Int))
    else none

def parse_daily_use (s : String) : Int :=
  if s = "" then 0 else (pyInt s).getD 0

/-! ## Batch Splitter (`split_batches`, `main.py` 855-857 = `index.py` 181-183)

`def split_batches(data, size): return [data[i:i + size] for i in range(0, len(data), size)]`
-/

/-- Python `range(0, stop, step)`.  CPython computes the length of such a
range as `(stop - start + step - 1) // step` and its `i`-th element as
`start + i*step`; with `start = 0` that is exactly this definition.
`range` with `step = 0` raises `ValueError` in Python; it is modelled as
the empty list and is unreachable from the repository, which calls
`split_batches` with sizes 50 and 100. -/
def pyRange (stop step : Nat) : List Nat :=
  if step = 0 then [] else (List.range ((stop + step - 1) / step)).map (· * step)

/-- `split_batches` from `main.py` lines 855-857 (identical in `index.py`
lines 181-183): the slice `data[i:i+size]` is `(data.drop i).take size`,
taken at every index produced by `range(0, len(data), size)`. -/
def split_batches {α : Type} (data : List α) (size : Nat) : List (List α) :=
  (pyRange data.length size).map (fun i => (data.drop i).take size)

theorem split_batches_nil {α : Type} (size : Nat) :
    split_batches ([] : List α) size = [] := by
  rcases Nat.eq_zero_or_pos size with h | h
  · simp [split_batches, pyRange, h]
  · have hz : (size - 1) / size = 0 := Nat.div_eq_of_lt (by omega)
    simp [split_batches, pyRange, Nat.pos_iff_ne_zero.mp h, hz]

/-- Ceiling-division step: for `n ≥ 1`, `⌈n/s⌉ = ⌈(n-s)/s⌉ + 1`. -/
theorem ceil_div_step (n s : Nat) (hs : 0 < s) (hn : 0 < n) :
    (n + s - 1) / s = ((n - s) + s - 1) / s + 1 := by
  have h1 : n + s - 1 = (n - 1) + s := by omega
  rw [h1, Nat.add_div_right _ hs]
  rcases le_or_lt n s with h | h
  · have h2 : (n - s) + s - 1 = s - 1 := by omega
    have h3 : (n - 1) / s = 0 := Nat.div_eq_of_lt (by omega)
    have h4 : (s - 1) / s = 0 := Nat.div_eq_of_lt (by omega)
    rw [h2, h3, h4]
  · have h2 : (n - s) + s - 1 = n - 1 := by omega
    rw [h2]

theorem split_batches_cons {α : Type} (d : List α) (s : Nat) (hs : 0 < s)
    (hd : d ≠ []) :
    split_batches d s = d.take s :: split_batches (d.drop s) s := by
  have hn : 0 < d.length := List.length_pos.mpr hd
  have hs0 : s ≠ 0 := Nat.pos_iff_ne_zero.mp hs
  unfold split_batches pyRange
  rw [if_neg hs0, if_neg hs0]
  rw [List.length_drop]
  rw [ceil_div_step d.length s hs hn, List.range_succ_eq_map]
  simp only [List.map_cons, List.map_map, Nat.zero_mul, List.drop_zero]
  refine congrArg (d.take s :: ·) ?_
  refine List.map_congr_left ?_
  intro i _
  simp only [Function.comp_apply, Nat.succ_mul, Nat.succ_eq_add_one]
  rw [List.drop_drop, Nat.add_comm]

/-- Recursion principle for `split_batches` at positive chunk size: a
property holds of every list and its chunking as soon as it holds for the
empty list and is preserved by peeling off the first chunk. -/
theorem split_batches_rec {α : Type} (s : Nat) (hs : 0 < s)
    (P : List α → List (List α) → Prop)
    (h0 : P [] [])
    (h1 : ∀ d : List α, d ≠ [] → P (d.drop s) (split_batches (d.drop s) s) →
      P d (d.take s :: split_batches (d.drop s) s)) :
    ∀ d : List α, P d (split_batches d s) := by
  have key : ∀ n (d : List α), d.length ≤ n → P d (split_batches d s) := by
    intro n
    induction n with
    | zero =>
      intro d hlen
      have : d = [] := List.eq_nil_of_length_eq_zero (Nat.le_zero.mp hlen)
      rw [this, split_batches_nil]
      exact h0
    | succ n ih =>
      intro d hlen
      by_cases hd : d = []
      · rw [hd, split_batches_nil]; exact h0
      · rw [split_batches_cons d s hs hd]
        refine h1 d hd (ih _ ?_)
        have := List.length_pos.mpr hd
        rw [List.length_drop]
        omega
  intro d
  exact key d.length d le_rfl

theorem split_batches_join {α : Type} (s : Nat) (hs : 0 < s) (d : List α) :
    (split_batches d s).flatten = d := by
  refine split_batches_rec s hs (fun d L => L.flatten = d) (by simp) ?_ d
  intro d _ ih
  simp [List.flatten, ih]

theorem split_batches_length {α : Type} (s : Nat) (hs : 0 < s) (d : List α) :
    (split_batches d s).length = (d.length + s - 1) / s := by
  refine split_batches_rec s hs
    (fun d L => L.length = (d.length + s - 1) / s) ?_ ?_ d
  · simp [Nat.div_eq_of_lt (show s - 1 < s by omega)]
  · intro d hd ih
    have hn : 0 < d.length := List.length_pos.mpr hd
    simp only [List.length_cons, ih, List.length_drop]
    rw [ceil_div_step d.length s hs hn]

theorem split_batches_chunk_le {α : Type} (s : Nat) (hs : 0 < s) (d : List α) :
    ∀ c ∈ split_batches d s, c.length ≤ s := by
  refine split_batches_rec s hs
    (fun _ L => ∀ c ∈ L, c.length ≤ s) (by simp) ?_ d
  intro d _ ih c hc
  rcases List.mem_cons.mp hc with h | h
  · subst h
    simp only [List.length_take]
    exact Nat.min_le_left s d.length
  · exact ih c h

theorem split_batches_full_chunks {α : Type} (s : Nat) (hs : 0 < s)
    (d : List α) : ∀ c ∈ (split_batches d s).dropLast, c.length = s := by
  refine split_batches_rec s hs
    (fun d L => ∀ c ∈ L.dropLast, c.length = s) (by simp) ?_ d
  intro d hd ih c hc
  by_cases hrest : split_batches (d.drop s) s = []
  · rw [hrest] at hc
    simp at hc
  · obtain ⟨y, t, hyt⟩ := List.exists_cons_of_ne_nil hrest
    rw [hyt] at hc
    rw [List.dropLast_cons₂] at hc
    rcases List.mem_cons.mp hc with h | h
    · subst h
      have hdrop : d.drop s ≠ [] := by
        intro hnil
        rw [hnil, split_batches_nil] at hrest
        exact hrest rfl
      have : s < d.length := by
        have := List.length_pos.mpr hdrop
        rw [List.length_drop] at this
        omega
      simp [List.length_take]
      omega
    · rw [← hyt] at h
      exact ih c h

/-- C1: for every list of work items of length `N` and every chunk size
`S ≥ 1`, `split_batches` returns exactly `⌈N/S⌉` chunks (written
`(N + S - 1) / S`), whose concatenation equals the original list, with
every chunk of length at most `S` and every chunk except possibly the
final one of length exactly `S`; no item is duplicated or dropped
(concatenation equality), and the result is a pure function of its
inputs. -/
theorem c1_batch_splitter {α : Type} (data : List α) (size : Nat)
    (hsize : 1 ≤ size) :
    (split_batches data size).length = (data.length + size - 1) / size ∧
    (split_batches data size).flatten = data ∧
    (∀ c ∈ split_batches data size, c.length ≤ size) ∧
    (∀ c ∈ (split_batches data size).dropLast, c.length = size) :=
  ⟨split_batches_length size hsize data,
   split_batches_join size hsize data,
   split_batches_chunk_le size hsize data,
   split_batches_full_chunks size hsize data⟩

theorem c1_batch_splitter_witness :
    1 ≤ 2 ∧
    (split_batches [0, 1, 2, 3, 4] 2).length = (5 + 2 - 1) / 2 ∧
    (split_batches [0, 1, 2, 3, 4] 2).flatten = [0, 1, 2, 3, 4] ∧
    split_batches [0, 1, 2, 3, 4] 2 = [[0, 1], [2, 3], [4]] :=
  ⟨by decide,
   (c1_batch_splitter [0, 1, 2, 3, 4] 2 (by decide)).1,
   (c1_batch_splitter [0, 1, 2, 3, 4] 2 (by decide)).2.1,
   by decide⟩

/-! ## Credential-blob parsing (`parse_cookie`, `api.py` 129-147 =
`main.py` 62-74 = `index.py` 44-62)

```
try:
    parsed_dict = ast.literal_eval(cookie_str)
    if not isinstance(parsed_dict, dict): return {}
    return {key: str(val).strip('"') for key, val in parsed_dict.items()}
except (ValueError, SyntaxError, TypeError):
    return {key.strip(): val.strip('"')
            for key, val in re.findall(r'([^=;\s]+)=(\".*?\"|[^;]+)', cookie_str)}
```
-/

/-- A flat Python literal scalar: a string or an integer.  The model of
`ast.literal_eval` is restricted to the flat shapes a credential blob
takes — strings, integers, and dictionaries of such scalars; nested
containers are outside the model. -/
inductive PyScalar where
  | str (s : String)
  | int (n : Int)
  deriving DecidableEq

/-- A parsed Python literal: a scalar, or a dictionary literal whose keys
and values are scalars (insertion order preserved, as in Python). -/
inductive PyValue where
  | scalar (v : PyScalar)
  | dict (entries : List (PyScalar × PyScalar))
  deriving DecidableEq

/-- Python `str(val)` on a scalar. -/
def pyStr : PyScalar → String
  | .str s => s
  | .int n => toString n

def skipWs (cs : List Char) : List Char :=
  cs.dropWhile (fun c => c.isWhitespace)

/-- Parse a quoted Python string literal (single or double quotes).
Escape sequences are not modelled; the cookie blobs hold none. -/
def parseStringLit : List Char → Option (String × List Char)
  | [] => none
  | q :: rest =>
    if q = '\'' || q = '"' then
      match rest.dropWhile (fun c => c ≠ q) with
      | _ :: after => some (String.mk (rest.takeWhile (fun c => c ≠ q)), after)
      | [] => none
    else none

def digitsToNat (ds : List Char) : Nat :=
  ds.foldl (fun acc c => acc * 10 + (c.toNat - Char.toNat '0')) 0

def parseNatLit (cs : List Char) : Option (Nat × List Char) :=
  let ds := cs.takeWhile (fun c => c.isDigit)
  if ds.isEmpty then none
  else some (digitsToNat ds, cs.dropWhile (fun c => c.isDigit))

def parseIntLit : List Char → Option (Int × List Char)
  | '-' :: rest => (parseNatLit rest).map (fun p => (-(p.1 : Int), p.2))
  | cs => (parseNatLit cs).map (fun p => ((p.1 : Int), p.2))

def parseScalar (cs : List Char) : Option (PyScalar × List Char) :=
  match parseStringLit cs with
  | some (s, rest) => some (.str s, rest)
  | none => (parseIntLit cs).map (fun p => (.int p.1, p.2))

/-- Parse the comma-separated `key: value` entries of a dictionary
literal, up to and including the closing brace.  Fuelled structural
recursion; every step consumes at least one character, so fuel equal to
the input length plus one never runs out. -/
def parseEntries : Nat → List Char → List (PyScalar × PyScalar) →
    Option (List (PyScalar × PyScalar) × List Char)
  | 0, _, _ => none
  | fuel + 1, cs, acc =>
    match parseScalar (skipWs cs) with
    | none => none
    | some (k, cs1) =>
      match skipWs cs1 with
      | ':' :: cs2 =>
        match parseScalar (skipWs cs2) with
        | none => none
        | some (v, cs3) =>
          match skipWs cs3 with
          | ',' :: cs4 =>
            (match skipWs cs4 with
             | '}' :: cs5 => some (acc ++ [(k, v)], cs5)
             | cs5 => parseEntries fuel cs5 (acc ++ [(k, v)]))
          | '}' :: cs4 => some (acc ++ [(k, v)], cs4)
          | _ => none
      | _ => none

/-- Model of `ast.literal_eval` restricted to flat literals: `none` means
the call raises (`ValueError`/`SyntaxError`), `some` is the parsed
value.  Trailing input after the literal is a parse error, as in Python. -/
def literal_eval (s : String) : Option PyValue :=
  match skipWs s.data with
  | '{' :: rest =>
    match skipWs rest with
    | '}' :: after =>
      if (skipWs after).isEmpty then some (.dict []) else none
    | _ =>
      match parseEntries (s.length + 1) rest [] with
      | some (es, after) =>
        if (skipWs after).isEmpty then some (.dict es) else none
      | none => none
  | cs =>
    match parseScalar cs with
    | some (v, after) =>
      if (skipWs after).isEmpty then some (.scalar v) else none
    | none => none

/-! Model of `re.findall(r'([^=;\s]+)=(\".*?\"|[^;]+)', cookie_str)`:
scan left to right; at each position try to match a maximal nonempty run
of characters outside `=;` and whitespace, then a literal `=`, then
either a minimally-matched double-quoted group (whose `.` does not cross
a newline, `DOTALL` being off) or a maximal nonempty run of non-`;`
characters.  On failure the scan advances one character; on success it
resumes after the match, exactly as `re.findall` does (the first group
cannot be empty, so matches cannot be zero-width). -/

def isKVChar (c : Char) : Bool :=
  !(c = '=' || c = ';' || c.isWhitespace)

/-- Find the first closing double quote, failing on a newline first
(`.` does not match a newline).  Returns the characters before the quote
and the characters after it. -/
def findCloseQuote : List Char → Option (List Char × List Char)
  | [] => none
  | '"' :: t => some ([], t)
  | '\n' :: _ => none
  | c :: t => (findCloseQuote t).map (fun p => (c :: p.1, p.2))

/-- Try the first alternative `\".*?\"` of the value group; the captured
group includes the surrounding quotes, as the regex does. -/
def tryQuoted : List Char → Option (String × List Char)
  | '"' :: rest =>
    (findCloseQuote rest).map
      (fun p => (String.mk ('"' :: (p.1 ++ ['"'])), p.2))
  | _ => none

/-- The `re.findall` scan itself (fuelled; fuel decreases by one per
step while every step consumes at least one character, so fuel equal to
the input length plus one never runs out). -/
def kvScan : Nat → List Char → List (String × String)
  | 0, _ => []
  | _, [] => []
  | fuel + 1, c :: rest =>
    if isKVChar c then
      match rest.dropWhile isKVChar with
      | '=' :: rest2 =>
        (match tryQuoted rest2 with
         | some (q, rest3) =>
           (String.mk (c :: rest.takeWhile isKVChar), q) :: kvScan fuel rest3
         | none =>
           let v := rest2.takeWhile (fun ch => ch ≠ ';')
           if v.isEmpty then kvScan fuel rest
           else
             (String.mk (c :: rest.takeWhile isKVChar), String.mk v) ::
               kvScan fuel (rest2.dropWhile (fun ch => ch ≠ ';')))
      | _ => kvScan fuel rest
    else kvScan fuel rest

/-- `re.findall(r'([^=;\s]+)=(\".*?\"|[^;]+)', s)`, the fallback stage of
`parse_cookie`. -/
def kv_findall (s : String) : List (String × String) :=
  kvScan (s.data.length + 1) s.data

/-- The dictionary-comprehension cleaning `{key: str(val).strip('"')}`
applied to a successfully parsed dictionary literal. -/
def clean_dict_entries (entries : List (PyScalar × PyScalar)) :
    List (PyScalar × String) :=
  entries.map (fun kv => (kv.1, stripQuotes (pyStr kv.2)))

/-- `parse_cookie` from `api.py` lines 129-147 (identical in `main.py`
62-74 and `index.py` 44-62).  Dictionaries are modelled as association
lists in insertion order; lookups take the last binding, matching Python
dict overwrite semantics.  The function is total: a failed literal parse
falls back to the key=value scan, and a literal that is not a dictionary
yields the empty mapping. -/
def parse_cookie (s : String) : List (PyScalar × String) :=
  match literal_eval s with
  | some (.dict entries) => clean_dict_entries entries
  | some (.scalar _) => []
  | none =>
    (kv_findall s).map
      (fun kv => (PyScalar.str (pyStrip kv.1), stripQuotes kv.2))

/-- Python `dict.get` on the association-list model: the last binding for
the key wins. -/
def pyDictGet (d : List (PyScalar × String)) (key : String) : Option String :=
  (d.reverse.find? (fun kv => decide (kv.1 = PyScalar.str key))).map Prod.snd

/-- `extract_ids` from `api.py` lines 149-153: look up `JSESSIONID` and
`li_at` in the cookie mapping. -/
def extract_ids (cookie_data : List (PyScalar × String)) :
    Option String × Option String :=
  (pyDictGet cookie_data "JSESSIONID", pyDictGet cookie_data "li_at")

/-- C9: `parse_cookie` is total (every input string yields a mapping —
its Lean type; the Python original catches every exception
`ast.literal_eval` declares) and two-stage: a failed structured-literal
parse falls back to the `key=value` regex scan; a successful parse of a
dictionary literal yields the cleaned dictionary; a successful parse of
a non-dictionary literal yields the empty mapping.  In no case is an
error raised, so a malformed record is skipped during selection rather
than aborting the run. -/
theorem c9_cookie_parsing_total_two_stage (s : String) :
    (literal_eval s = none →
      parse_cookie s =
        (kv_findall s).map
          (fun kv => (PyScalar.str (pyStrip kv.1), stripQuotes kv.2))) ∧
    (∀ entries, literal_eval s = some (.dict entries) →
      parse_cookie s = clean_dict_entries entries) ∧
    (∀ v, literal_eval s = some (.scalar v) → parse_cookie s = []) := by
  refine ⟨fun h => ?_, fun entries h => ?_, fun v h => ?_⟩ <;>
    · unfold parse_cookie
      rw [h]

theorem c9_cookie_parsing_witness :
    literal_eval "li_at=tok; JSESSIONID=ajax:42" = none ∧
    parse_cookie "li_at=tok; JSESSIONID=ajax:42" =
      [(PyScalar.str "li_at", "tok"), (PyScalar.str "JSESSIONID", "ajax:42")] := by
  refine ⟨rfl, ?_⟩
  rw [(c9_cookie_parsing_total_two_stage "li_at=tok; JSESSIONID=ajax:42").1 rfl]
  rfl

/-! ## Account Selector (`read_available_account`, `api.py` 159-232)

The spreadsheet rows are modelled as records already projected onto the
four columns the function indexes (`cookies`, `Structured proxy`,
`verification_status`, `daily_use`); rows shorter than the largest
column index, which the source skips with a warning, have no
representation in the record model. -/

structure Row where
  cookies : String
  structured_proxy : String
  verification_status : String
  daily_use : String
  deriving DecidableEq

/-- `CONFIG["daily_limit"]` from `api.py` line 37. -/
def daily_limit : Int := 250

/-- The account dictionary built at `api.py` lines 220-227 (the `sheet`
back-reference, an I/O handle, is not modelled). -/
structure Account where
  li_at : String
  JSESSIONID : String
  proxy : String
  row_index : Nat
  daily_use : Int
  deriving DecidableEq

/-- The account dictionary `read_available_account` returns for the row
at (1-based) sheet index `i`. -/
def mk_account (i : Nat) (r : Row) : Account :=
  { li_at := ((extract_ids (parse_cookie (pyStrip r.cookies))).2).getD ""
    JSESSIONID := ((extract_ids (parse_cookie (pyStrip r.cookies))).1).getD ""
    proxy := pyStrip r.structured_proxy
    row_index := i
    daily_use := parse_daily_use (pyStrip r.daily_use) }

/-- The row loop of `read_available_account` (`api.py` lines 188-229),
with `i` the sheet row index (the source enumerates from 2).  Each
`continue` of the source is a recursive call on the remaining rows; the
tuple unpacking `jsessionid, li_at = extract_ids(...)` and the truthiness
test `if li_at and jsessionid` appear as the two `truthy` projections. -/
def read_available_account_from : Nat → List Row → Option Account
  | _, [] => none
  | i, r :: rs =>
    if normalize_status r.verification_status ≠ "verified" then
      read_available_account_from (i + 1) rs
    else if daily_limit ≤ parse_daily_use (pyStrip r.daily_use) then
      read_available_account_from (i + 1) rs
    else if pyStrip r.cookies = "" then
      read_available_account_from (i + 1) rs
    else if truthy (extract_ids (parse_cookie (pyStrip r.cookies))).2 &&
        truthy (extract_ids (parse_cookie (pyStrip r.cookies))).1 then
      some (mk_account i r)
    else
      read_available_account_from (i + 1) rs

/-- `read_available_account` from `api.py` lines 159-232, starting at
sheet row 2 (`enumerate(rows[1:], start=2)`). -/
def read_available_account (rows : List Row) : Option Account :=
  read_available_account_from 2 rows

/-- The eligibility predicate exactly as the claim states it: status
normalizes to "verified", parsed daily usage strictly below the limit,
and both tokens extracted from the cookie blob present and non-empty. -/
def claim_eligible (r : Row) : Bool :=
  decide (normalize_status r.verification_status = "verified") &&
  decide (parse_daily_use (pyStrip r.daily_use) < daily_limit) &&
  truthy (extract_ids (parse_cookie (pyStrip r.cookies))).2 &&
  truthy (extract_ids (parse_cookie (pyStrip r.cookies))).1

/-- Written from the claim text, not the source: return the first row in
pool order satisfying `claim_eligible`, as the account record it induces.
`read_available_account` is proved equal to it. -/
def selector_spec : Nat → List Row → Option Account
  | _, [] => none
  | i, r :: rs =>
    if claim_eligible r then some (mk_account i r)
    else selector_spec (i + 1) rs

theorem parse_cookie_empty : parse_cookie "" = [] := rfl

theorem read_from_eq_selector_spec (rows : List Row) :
    ∀ i : Nat, read_available_account_from i rows = selector_spec i rows := by
  induction rows with
  | nil => intro i; rfl
  | cons r rs ih =>
    intro i
    by_cases h1 : normalize_status r.verification_status = "verified"
    · by_cases h2 : parse_daily_use (pyStrip r.daily_use) < daily_limit
      · by_cases h3 : pyStrip r.cookies = ""
        · have hext : extract_ids (parse_cookie "") = (none, none) := rfl
          simp [read_available_account_from, selector_spec, claim_eligible,
            h1, h2, not_le.mpr h2, h3, hext, truthy, ih]
        · by_cases h4 :
              (truthy (extract_ids (parse_cookie (pyStrip r.cookies))).2 &&
                truthy (extract_ids (parse_cookie (pyStrip r.cookies))).1) = true
          · simp [read_available_account_from, selector_spec, claim_eligible,
              h1, h2, not_le.mpr h2, h3, h4, ih]
          · simp only [Bool.not_eq_true] at h4
            simp [read_available_account_from, selector_spec, claim_eligible,
              h1, h2, not_le.mpr h2, h3, h4, ih]
      · simp [read_available_account_from, selector_spec, claim_eligible,
          h1, h2, not_lt.mp h2, ih]
    · simp [read_available_account_from, selector_spec, claim_eligible, h1, ih]

theorem selector_spec_none_iff (rows : List Row) : ∀ i : Nat,
    selector_spec i rows = none ↔ ∀ r ∈ rows, claim_eligible r = false := by
  induction rows with
  | nil => intro i; simp [selector_spec]
  | cons r rs ih =>
    intro i
    by_cases h : claim_eligible r
    · simp [selector_spec, h]
    · simp only [Bool.not_eq_true] at h
      simp [selector_spec, h, ih (i + 1)]

theorem selector_spec_some (rows : List Row) : ∀ (i : Nat) (acc : Account),
    selector_spec i rows = some acc →
    ∃ j r, rows.get? j = some r ∧ claim_eligible r = true ∧
      acc = mk_account (i + j) r ∧
      ∀ k r', k < j → rows.get? k = some r' → claim_eligible r' = false := by
  induction rows with
  | nil => intro i acc h; simp [selector_spec] at h
  | cons r rs ih =>
    intro i acc h
    by_cases hr : claim_eligible r
    · rw [selector_spec, if_pos hr] at h
      refine ⟨0, r, rfl, hr, ?_, ?_⟩
      · rw [Nat.add_zero]
        exact (Option.some_inj.mp h).symm
      · intro k r' hk
        omega
    · rw [selector_spec, if_neg hr] at h
      obtain ⟨j, r', hget, helig, hacc, hmin⟩ := ih (i + 1) acc h
      refine ⟨j + 1, r', by simpa using hget, helig, ?_, ?_⟩
      · rw [show i + (j + 1) = i + 1 + j by omega]
        exact hacc
      · intro k r'' hk hget'
        cases k with
        | zero =>
          simp only [List.get?_cons_zero, Option.some_inj] at hget'
          rw [← hget']
          simpa using hr
        | succ k =>
          simp only [List.get?_cons_succ] at hget'
          exact hmin k r'' (by omega) hget'

/-- C2: the Account Selector returns the first credential in pool order
whose status normalizes to "verified", whose daily usage is strictly
below the configured daily limit, and from whose cookie blob both tokens
extract non-empty; it never returns a credential violating any of these,
and it returns `none` — an ordinary value, not an error — when no
credential qualifies. -/
theorem c2_account_selector (rows : List Row) :
    read_available_account rows = selector_spec 2 rows ∧
    (∀ acc, read_available_account rows = some acc →
      ∃ j r, rows.get? j = some r ∧ claim_eligible r = true ∧
        acc = mk_account (2 + j) r ∧
        ∀ k r', k < j → rows.get? k = some r' → claim_eligible r' = false) ∧
    (read_available_account rows = none ↔
      ∀ r ∈ rows, claim_eligible r = false) := by
  have he : read_available_account rows = selector_spec 2 rows :=
    read_from_eq_selector_spec rows 2
  refine ⟨he, ?_, ?_⟩
  · intro acc hacc
    exact selector_spec_some rows 2 acc (he ▸ hacc)
  · rw [he]
    exact selector_spec_none_iff rows 2

theorem c2_account_selector_witness :
    read_available_account
      [⟨"not a cookie blob", "p1", "unverified", "0"⟩,
       ⟨"li_at=tok; JSESSIONID=ajax:42", "p2", " Verified ", "10"⟩] =
      some ⟨"tok", "ajax:42", "p2", 3, 10⟩ ∧
    read_available_account
      [⟨"li_at=tok; JSESSIONID=ajax:42", "p", "verified", "250"⟩] = none := by
  constructor
  · rw [(c2_account_selector _).1]
    decide
  · exact (c2_account_selector _).2.2.mpr (by decide)

/-! ## Job Dispatcher (`start_scraping`, `api.py` 263-294)

```
try:
    response = requests.post(...)
    response.raise_for_status()
    batch_id = response.json().get("batch_id")
    update_account_usage(account)
    return batch_id
except requests.exceptions.RequestException:
    return None
```
-/

/-- Outcome of the `requests.post` call as seen by the surrounding
`try`: either the request machinery raises (`RequestException`:
connection error, timeout), or an HTTP response arrives with a status
code and — when the body is valid JSON — a parsed JSON object, modelled
as a string-to-string field mapping restricted to the fields the code
reads.  `raise_for_status` turns codes ≥ 400 into a caught exception; an
unparseable body makes `.json()` raise, which is likewise caught
(`JSONDecodeError` is a `RequestException` in the `requests` versions
this code targets). -/
inductive PostResp where
  | exn
  | ok (code : Nat) (body : Option (List (String × String)))
  deriving DecidableEq

/-- Python `dict.get` on a parsed JSON object (last binding wins). -/
def pyGetStr (fields : List (String × String)) (key : String) : Option String :=
  (fields.reverse.find? (fun kv => decide (kv.1 = key))).map Prod.snd

/-- `update_account_usage` from `api.py` lines 242-261: writes
`account["daily_use"] + 1` back to the usage cell; on the record model it
increments the usage counter by exactly one. -/
def update_account_usage (a : Account) : Account :=
  { a with daily_use := a.daily_use + 1 }

/-- `start_scraping` from `api.py` lines 263-294, returning the optional
job handle together with the account after any usage update.  The
payload construction (token normalization, work items, proxy) does not
influence either component and is not modelled; the HTTP outcome is the
`resp` input. -/
def start_scraping (a : Account) (resp : PostResp) : Option String × Account :=
  match resp with
  | .exn => (none, a)
  | .ok code body =>
    if 400 ≤ code then (none, a)
    else
      match body with
      | none => (none, a)
      | some fields => (pyGetStr fields "batch_id", update_account_usage a)

/-- The condition under which the source actually increments the
counter: the POST yields an HTTP success (< 400) with a parseable JSON
body — whether or not that body carries `batch_id`. -/
def http_parse_success : PostResp → Bool
  | .ok code (some _) => decide (code < 400)
  | _ => false

/-- C3 counterexample: a 200 response whose JSON body lacks the
`batch_id` field.  The dispatch is reported failed (`none` handle — the
caller treats a missing handle as "Failed to start scraping"), yet the
usage counter has been incremented from 5 to 6, contradicting the
claim's "not incremented when the dispatch fails for any declared
reason, including a 2xx response lacking the expected handle field". -/
theorem c3_usage_increment_counterexample :
    start_scraping ⟨"tok", "ajax:42", "p", 2, 5⟩
        (.ok 200 (some [("detail", "accepted")])) =
      (none, ⟨"tok", "ajax:42", "p", 2, 6⟩) := by
  decide

/-- C3 amended: the usage counter is incremented by exactly one when and
only when the HTTP POST succeeds (< 400) with a parseable JSON body —
including when the `batch_id` field is absent and the dispatch is
reported failed — and is never incremented on transport errors, HTTP
error statuses, or unparseable bodies; every dispatch that does return a
job handle has incremented the counter. -/
theorem c3_usage_increment_amended (a : Account) (resp : PostResp) :
    (start_scraping a resp).2.daily_use =
      a.daily_use + (if http_parse_success resp then 1 else 0) ∧
    (∀ bid, (start_scraping a resp).1 = some bid →
      http_parse_success resp = true) ∧
    (update_account_usage a).daily_use = a.daily_use + 1 := by
  refine ⟨?_, ?_, rfl⟩ <;>
  · cases resp with
    | exn => simp [start_scraping, http_parse_success]
    | ok code body =>
      cases body with
      | none => simp [start_scraping, http_parse_success]
      | some fields =>
        by_cases hc : 400 ≤ code
        · simp [start_scraping, http_parse_success, hc, Nat.not_lt.mpr hc]
        · simp [start_scraping, http_parse_success, hc, Nat.not_le.mp hc,
            update_account_usage]

theorem c3_usage_increment_witness :
    http_parse_success (.ok 200 (some [("batch_id", "b1")])) = true :=
  (c3_usage_increment_amended ⟨"tok", "ajax:42", "p", 2, 5⟩
      (.ok 200 (some [("batch_id", "b1")]))).2.1 "b1" (by decide)

/-! ## Completion Pollers

Three variants poll `GET /scrape-status/{batch_id}` in a bounded retry
loop: `api.py` `wait_for_completion` (lines 296-333, `max_retries = 10`),
`index.py` `wait_for_completion` (lines 208-245, `max_retries = 10`),
and `main.py` `wait_for_batch_completion` + `check_batch_status_async`
(lines 888-940, `max_retries = 12`).  Each loop iteration issues one GET
whose outcome is read off an oracle indexed by the attempt number; the
returned pair carries the result together with the number of polls
actually performed.  Sleep intervals and jitter have no bearing on the
computed result and are not modelled. -/

/-- One poll of the status endpoint as seen by the surrounding `try`:
either the request raises — carrying the HTTP status code when the
exception has a response attached (as `raise_for_status` produces for
4xx/5xx), `none` for bare transport failures — or a JSON body arrives. -/
inductive PollResp (β : Type) where
  | exn (code : Option Nat)
  | ok (body : β)
  deriving DecidableEq

/-- `hasattr(e, 'response') and e.response is not None and
400 <= e.response.status_code < 500`, the client-error test shared by
`api.py` line 324 and `index.py` line 236. -/
def isClientError : Option Nat → Bool
  | some c => decide (400 ≤ c) && decide (c < 500)
  | none => false

namespace Api

/-- `max_retries = 10` (`api.py` line 298). -/
def max_retries : Nat := 10

/-- JSON body of a status poll, restricted to the fields `api.py` reads. -/
structure Body where
  status : Option String
  error : Option String
  deriving DecidableEq

/-- Terminal outcome of `api.py`'s `wait_for_completion`: the dicts it
returns, with `result` carried as the completed body, a failure message,
a client-error escalation, or the synthesized timeout. -/
inductive Outcome where
  | completed (body : Body)
  | failed (error : String)
  | clientError (code : Nat)
  | timeout
  deriving DecidableEq

/-- The retry loop of `api.py` lines 301-330, by remaining fuel
(`max_retries - attempt`); the second component counts polls issued. -/
def wait_aux (oracle : Nat → PollResp Body) : Nat → Nat → Outcome × Nat
  | _, 0 => (.timeout, 0)
  | attempt, fuel + 1 =>
    match oracle attempt with
    | .ok body =>
      if body.status = some "completed" then (.completed body, 1)
      else if body.status = some "failed" then
        (.failed (body.error.getD "Unknown error"), 1)
      else
        let r := wait_aux oracle (attempt + 1) fuel
        (r.1, r.2 + 1)
    | .exn code =>
      if isClientError code then (.clientError (code.getD 0), 1)
      else
        let r := wait_aux oracle (attempt + 1) fuel
        (r.1, r.2 + 1)

/-- `wait_for_completion` from `api.py` lines 296-333. -/
def wait_for_completion (oracle : Nat → PollResp Body) : Outcome × Nat :=
  wait_aux oracle 0 max_retries

/-- A poll response that keeps the state Pending: a body whose status
field is neither terminal value (including an absent field). -/
def nonTerminal (r : PollResp Body) : Prop :=
  ∃ b, r = .ok b ∧ b.status ≠ some "completed" ∧ b.status ≠ some "failed"

theorem wait_aux_pending_api (oracle : Nat → PollResp Body) :
    ∀ (fuel attempt : Nat),
      (∀ k, attempt ≤ k → k < attempt + fuel → nonTerminal (oracle k)) →
      wait_aux oracle attempt fuel = (.timeout, fuel) := by
  intro fuel
  induction fuel with
  | zero => intro attempt _; rfl
  | succ fuel ih =>
    intro attempt h
    obtain ⟨b, hb, hc, hf⟩ := h attempt le_rfl (by omega)
    rw [wait_aux, hb]
    simp only [if_neg hc, if_neg hf,
      ih (attempt + 1) (fun k hk1 hk2 => h k (by omega) (by omega))]

end Api

namespace Main

/-- `CONFIG["concurrency"]["max_retries_per_batch"] = 12`
(`main.py` line 39). -/
def max_retries_per_batch : Nat := 12

/-- JSON body of a status poll as `main.py` reads it; a completed body's
flattened profile records (`process_api_response(data)`, the
out-of-scope field-flattening) are carried abstractly as `results`. -/
structure Body (ρ : Type) where
  status : Option String
  results : List ρ
  deriving DecidableEq

/-- `check_batch_status_async` from `main.py` lines 888-912: `some`
results when terminal (`completed` yields the flattened records,
`failed` yields `[]`), `none` while still in progress — and `some []`
for ANY exception, the `except Exception` at line 910 swallowing
transport errors of every kind. -/
def check_batch_status {ρ : Type} (resp : PollResp (Body ρ)) :
    Option (List ρ) :=
  match resp with
  | .ok body =>
    if body.status = some "completed" then some body.results
    else if body.status = some "failed" then some []
    else none
  | .exn _ => some []

/-- `wait_for_batch_completion` from `main.py` lines 914-940.  Its own
`except` arm (sleep and retry) is unreachable, because
`check_batch_status_async` never raises; the model reflects the
reachable behavior.  The second component counts polls issued. -/
def wait_aux {ρ : Type} (oracle : Nat → PollResp (Body ρ)) :
    Nat → Nat → List ρ × Nat
  | _, 0 => ([], 0)
  | attempt, fuel + 1 =>
    match check_batch_status (oracle attempt) with
    | some r => (r, 1)
    | none =>
      let r := wait_aux oracle (attempt + 1) fuel
      (r.1, r.2 + 1)

def wait_for_batch_completion {ρ : Type}
    (oracle : Nat → PollResp (Body ρ)) : List ρ × Nat :=
  wait_aux oracle 0 max_retries_per_batch

/-- A poll response that keeps the batch in progress: a body whose
status is neither terminal value (no exception — an exception is
terminal here, see `check_batch_status`). -/
def nonTerminal {ρ : Type} (r : PollResp (Body ρ)) : Prop :=
  ∃ b, r = .ok b ∧ b.status ≠ some "completed" ∧ b.status ≠ some "failed"

theorem wait_aux_pending_main {ρ : Type} (oracle : Nat → PollResp (Body ρ)) :
    ∀ (fuel attempt : Nat),
      (∀ k, attempt ≤ k → k < attempt + fuel → nonTerminal (oracle k)) →
      wait_aux oracle attempt fuel = ([], fuel) := by
  intro fuel
  induction fuel with
  | zero => intro attempt _; rfl
  | succ fuel ih =>
    intro attempt h
    obtain ⟨b, hb, hc, hf⟩ := h attempt le_rfl (by omega)
    rw [wait_aux]
    rw [show check_batch_status (oracle attempt) = none by
      rw [hb]; simp [check_batch_status, hc, hf]]
    simp only [ih (attempt + 1) (fun k hk1 hk2 => h k (by omega) (by omega))]

end Main

namespace Index

/-- `max_retries = 10` (`index.py` line 210). -/
def max_retries : Nat := 10

/-- JSON body of a status poll as `index.py` reads it:
`data.get("result", [])` is carried as `result` (absent field = `[]`). -/
structure Body (ρ : Type) where
  status : Option String
  result : List ρ
  error : Option String
  deriving DecidableEq

/-- The retry loop of `index.py` lines 214-245: `completed` returns the
result list, `failed` returns `[]`, a client-error (4xx) exception
returns `[]` immediately, any other exception retries, and exhausting
the loop returns `[]` (timeout).  The second component counts polls
issued. -/
def wait_aux {ρ : Type} (oracle : Nat → PollResp (Body ρ)) :
    Nat → Nat → List ρ × Nat
  | _, 0 => ([], 0)
  | attempt, fuel + 1 =>
    match oracle attempt with
    | .ok body =>
      if body.status = some "completed" then (body.result, 1)
      else if body.status = some "failed" then ([], 1)
      else
        let r := wait_aux oracle (attempt + 1) fuel
        (r.1, r.2 + 1)
    | .exn code =>
      if isClientError code then ([], 1)
      else
        let r := wait_aux oracle (attempt + 1) fuel
        (r.1, r.2 + 1)

/-- `wait_for_completion` from `index.py` lines 208-245. -/
def wait_for_completion {ρ : Type}
    (oracle : Nat → PollResp (Body ρ)) : List ρ × Nat :=
  wait_aux oracle 0 max_retries

end Index

/-- C4: with every poll answering a non-terminal status, both pollers
perform exactly their configured maximum number of status checks — never
fewer, never more — and then report timeout: the `api.py` variant
synthesizes the `timeout` outcome after exactly 10 polls, and the
`main.py` variant returns the empty result list (zero results for
aggregation) after exactly 12 polls. -/
theorem c4_poller_timeout_exact {ρ : Type}
    (oA : Nat → PollResp Api.Body) (oM : Nat → PollResp (Main.Body ρ))
    (hA : ∀ k, k < Api.max_retries → Api.nonTerminal (oA k))
    (hM : ∀ k, k < Main.max_retries_per_batch → Main.nonTerminal (oM k)) :
    Api.wait_for_completion oA = (.timeout, Api.max_retries) ∧
    Main.wait_for_batch_completion oM = ([], Main.max_retries_per_batch) := by
  constructor
  · exact Api.wait_aux_pending_api oA Api.max_retries 0
      (fun k _ hk => hA k (by omega))
  · exact Main.wait_aux_pending_main oM Main.max_retries_per_batch 0
      (fun k _ hk => hM k (by omega))

theorem c4_poller_timeout_witness :
    Api.wait_for_completion (fun _ => .ok ⟨some "in_progress", none⟩) =
      (.timeout, 10) ∧
    Main.wait_for_batch_completion
        (fun _ => (.ok ⟨some "in_progress", []⟩ : PollResp (Main.Body Nat))) =
      ([], 12) :=
  c4_poller_timeout_exact
    (fun _ => .ok ⟨some "in_progress", none⟩)
    (fun _ => (.ok ⟨some "in_progress", []⟩ : PollResp (Main.Body Nat)))
    (fun k _ => ⟨⟨some "in_progress", none⟩, rfl, by decide, by decide⟩)
    (fun k _ => ⟨⟨some "in_progress", []⟩, rfl, by decide, by decide⟩)

/-- C5 counterexample: in the `main.py` poller a server-side transport
error (HTTP 500 on the very first poll) is NOT retried: the poller stops
after exactly 1 poll with the empty "failed" result, not after the
12-poll retry budget the claim's "every other transport-level error is
retried" would entail. -/
theorem c5_poll_transport_error_counterexample :
    Main.wait_for_batch_completion
        (fun _ => (.exn (some 500) : PollResp (Main.Body Nat))) = ([], 1) ∧
    (1 : Nat) ≠ Main.max_retries_per_batch :=
  ⟨rfl, by decide⟩

/-- C5 amended: in the synchronous poller (`index.py`), a client-error
(4xx) transport failure terminates the poller immediately as Failed —
the erroring poll is the last, zero further attempts — while every other
transport failure consumes one retry and continues the loop; in the
concurrent poller (`main.py`), EVERY transport failure — 4xx or not —
terminates the poller immediately as Failed with the empty result,
because `check_batch_status_async` swallows all exceptions into the
terminal empty result. -/
theorem c5_poll_transport_errors_amended {ρ : Type}
    (oI : Nat → PollResp (Index.Body ρ)) (oM : Nat → PollResp (Main.Body ρ))
    (attempt fuel c : Nat) (e : Option Nat) :
    (oI attempt = .exn (some c) → 400 ≤ c → c < 500 →
      Index.wait_aux oI attempt (fuel + 1) = ([], 1)) ∧
    (oI attempt = .exn e → isClientError e = false →
      Index.wait_aux oI attempt (fuel + 1) =
        ((Index.wait_aux oI (attempt + 1) fuel).1,
          (Index.wait_aux oI (attempt + 1) fuel).2 + 1)) ∧
    (oM attempt = .exn e → Main.wait_aux oM attempt (fuel + 1) = ([], 1)) := by
  refine ⟨fun h h4 h5 => ?_, fun h hnc => ?_, fun h => ?_⟩
  · rw [Index.wait_aux, h]
    simp [isClientError, h4, h5]
  · rw [Index.wait_aux, h]
    simp [hnc]
  · rw [Main.wait_aux, h]
    rfl

theorem c5_poll_transport_errors_witness :
    Index.wait_aux (fun _ => (.exn (some 404) : PollResp (Index.Body Nat))) 0 10 =
      ([], 1) ∧
    Index.wait_aux (fun _ => (.exn (some 503) : PollResp (Index.Body Nat))) 3 5 =
      ((Index.wait_aux (fun _ => (.exn (some 503) : PollResp (Index.Body Nat))) 4 4).1,
        (Index.wait_aux (fun _ => (.exn (some 503) : PollResp (Index.Body Nat))) 4 4).2 + 1) ∧
    Main.wait_aux (fun _ => (.exn none : PollResp (Main.Body Nat))) 0 12 = ([], 1) :=
  ⟨(c5_poll_transport_errors_amended
      (fun _ => (.exn (some 404) : PollResp (Index.Body Nat)))
      (fun _ => (.exn none : PollResp (Main.Body Nat))) 0 9 404 none).1
      rfl (by decide) (by decide),
   (c5_poll_transport_errors_amended
      (fun _ => (.exn (some 503) : PollResp (Index.Body Nat)))
      (fun _ => (.exn none : PollResp (Main.Body Nat))) 3 4 503 (some 503)).2.1
      rfl (by decide),
   (c5_poll_transport_errors_amended
      (fun _ => (.exn (some 503) : PollResp (Index.Body Nat)))
      (fun _ => (.exn none : PollResp (Main.Body Nat))) 0 11 503 none).2.2
      rfl⟩

/-! ## Result Aggregator (`process_all_batches_concurrent`, `main.py` 960-1011)

```
results = await asyncio.gather(*tasks, return_exceptions=True)
all_results = []
successful_batches = 0
for i, result in enumerate(results):
    if isinstance(result, Exception): ...log...
    elif isinstance(result, list) and result:
        all_results.extend(result); successful_batches += 1
    else: ...log "no results"...
```
-/

/-- A batch pipeline's terminal entry in the `gather` result list: the
exception object (under `return_exceptions=True`) or the pipeline's
result list (`process_batch` always returns a list). -/
inductive BatchOutcome (ρ : Type) where
  | exn
  | res (results : List ρ)
  deriving DecidableEq

/-- The result list a terminal outcome contributes (an exception
contributes nothing). -/
def outcomeResults {ρ : Type} : BatchOutcome ρ → List ρ
  | .exn => []
  | .res l => l

/-- `isinstance(result, list) and result`: counted as a successful
batch. -/
def isSuccessfulBatch {ρ : Type} : BatchOutcome ρ → Bool
  | .exn => false
  | .res l => !l.isEmpty

/-- One iteration of the result-collection loop (`main.py` 998-1006). -/
def aggregate_fold {ρ : Type} (acc : List ρ × Nat) (o : BatchOutcome ρ) :
    List ρ × Nat :=
  match o with
  | .exn => acc
  | .res l => if l.isEmpty then acc else (acc.1 ++ l, acc.2 + 1)

/-- The result-collection loop of `main.py` lines 994-1011, folding the
gathered per-batch outcomes in batch-index order into the flat
`all_results` list and the `successful_batches` counter. -/
def aggregate {ρ : Type} (outcomes : List (BatchOutcome ρ)) : List ρ × Nat :=
  outcomes.foldl aggregate_fold ([], 0)

theorem foldl_aggregate_fold {ρ : Type} :
    ∀ (outcomes : List (BatchOutcome ρ)) (acc : List ρ × Nat),
      outcomes.foldl aggregate_fold acc =
        (acc.1 ++ (outcomes.map outcomeResults).flatten,
          acc.2 + outcomes.countP isSuccessfulBatch) := by
  intro outcomes
  induction outcomes with
  | nil => intro acc; simp
  | cons o os ih =>
    intro acc
    cases o with
    | exn =>
      simp [aggregate_fold, outcomeResults, isSuccessfulBatch, ih,
        List.countP_cons]
    | res l =>
      by_cases hl : l.isEmpty
      · have hnil : l = [] := by simpa using hl
        simp [aggregate_fold, hnil, outcomeResults, isSuccessfulBatch, ih,
          List.countP_cons]
      · have hstep : aggregate_fold acc (.res l) = (acc.1 ++ l, acc.2 + 1) := by
          simp [aggregate_fold, hl]
        rw [List.foldl_cons, hstep, ih]
        simp only [List.map_cons, List.flatten_cons, List.countP_cons,
          outcomeResults, isSuccessfulBatch, hl, Prod.mk.injEq]
        exact ⟨by simp [List.append_assoc], by norm_num; omega⟩

theorem sum_length_filter_nonempty {ρ : Type} (ls : List (List ρ)) :
    ((ls.filter (fun l => !l.isEmpty)).map List.length).sum =
      (ls.map List.length).sum := by
  induction ls with
  | nil => rfl
  | cons l ls ih =>
    by_cases hl : l.isEmpty
    · have hnil : l = [] := by simpa using hl
      simp [hnil, List.filter_cons, ih]
    · simp [List.filter_cons, hl, ih]

/-- C6: for every list of terminal per-batch outcomes, the aggregate is
the concatenation, in batch-index order, of the per-batch result lists
(exceptions contributing nothing); its length is the sum of the lengths
of the non-empty per-batch result lists; the successful-batch count is
the number of batches that yielded at least one result; and when every
batch failed or yielded nothing, the aggregate is empty with a zero
count. -/
theorem c6_result_aggregator {ρ : Type} (outcomes : List (BatchOutcome ρ)) :
    (aggregate outcomes).1 = (outcomes.map outcomeResults).flatten ∧
    (aggregate outcomes).1.length =
      ((((outcomes.map outcomeResults).filter (fun l => !l.isEmpty)).map
          List.length).sum) ∧
    (aggregate outcomes).2 = outcomes.countP isSuccessfulBatch ∧
    ((∀ o ∈ outcomes, outcomeResults o = []) → aggregate outcomes = ([], 0)) := by
  have hfold := foldl_aggregate_fold outcomes (([], 0) : List ρ × Nat)
  refine ⟨?_, ?_, ?_, ?_⟩
  · simpa [aggregate] using congrArg Prod.fst hfold
  · have h1 : (aggregate outcomes).1 = (outcomes.map outcomeResults).flatten := by
      simpa [aggregate] using congrArg Prod.fst hfold
    rw [h1, List.length_flatten, List.map_map, sum_length_filter_nonempty,
      List.map_map]
  · simpa [aggregate] using congrArg Prod.snd hfold
  · intro hall
    have h1 : (outcomes.map outcomeResults).flatten = [] := by
      rw [List.flatten_eq_nil_iff]
      intro l hl
      obtain ⟨o, ho, rfl⟩ := List.mem_map.mp hl
      exact hall o ho
    have h2 : outcomes.countP isSuccessfulBatch = 0 := by
      rw [List.countP_eq_zero]
      intro o ho
      cases o with
      | exn => simp [isSuccessfulBatch]
      | res l =>
        have := hall _ ho
        simp only [outcomeResults] at this
        simp [isSuccessfulBatch, this]
    rw [aggregate, hfold, h1, h2]
    rfl

theorem c6_result_aggregator_witness :
    (∀ o ∈ ([BatchOutcome.exn, .res ([] : List Nat), .res []]),
        outcomeResults o = []) ∧
    aggregate [BatchOutcome.exn, .res ([] : List Nat), .res []] = ([], 0) ∧
    aggregate [BatchOutcome.res [1, 2], .exn, .res [3]] = ([1, 2, 3], 2) :=
  ⟨by decide,
   (c6_result_aggregator [BatchOutcome.exn, .res ([] : List Nat), .res []]).2.2.2
     (by decide),
   by decide⟩

theorem outcome_data_set_exn {ρ : Type} :
    ∀ (os : List (BatchOutcome ρ)) (i : Nat), os.get? i = some .exn →
      (os.set i (.res [])).map outcomeResults = os.map outcomeResults ∧
      (os.set i (.res [])).countP isSuccessfulBatch =
        os.countP isSuccessfulBatch := by
  intro os
  induction os with
  | nil => intro i h; simp at h
  | cons o os ih =>
    intro i h
    cases i with
    | zero =>
      have ho : o = .exn := by simpa using h
      subst ho
      simp [List.set, outcomeResults, isSuccessfulBatch, List.countP_cons]
    | succ i =>
      have h' : os.get? i = some .exn := by simpa using h
      obtain ⟨h1, h2⟩ := ih i h'
      simp [List.set, h1, h2, List.countP_cons]

/-- C7: an exception raised inside one batch pipeline is recorded by
`gather(..., return_exceptions=True)` as that batch's terminal outcome
and treated by the aggregation loop exactly as a zero-result batch: the
aggregate (flat results and successful-batch summary, which the total
function always produces) is unchanged if the excepting batch is
replaced by an empty-result batch, so sibling pipelines' contributions
are untouched and the run is never aborted. -/
theorem c7_pipeline_exception_isolation {ρ : Type}
    (outcomes : List (BatchOutcome ρ)) (i : Nat)
    (h : outcomes.get? i = some .exn) :
    aggregate outcomes = aggregate (outcomes.set i (.res [])) := by
  obtain ⟨h1, h2⟩ := outcome_data_set_exn outcomes i h
  rw [aggregate, aggregate, foldl_aggregate_fold, foldl_aggregate_fold, h1, h2]

theorem c7_pipeline_exception_isolation_witness :
    [BatchOutcome.res [1, 2], .exn, .res [3]].get? 1 =
      some (BatchOutcome.exn (ρ := Nat)) ∧
    aggregate [BatchOutcome.res [1, 2], .exn, .res [3]] =
      aggregate ([BatchOutcome.res [1, 2], .exn, .res [3]].set 1 (.res [])) :=
  ⟨rfl, c7_pipeline_exception_isolation [BatchOutcome.res [1, 2], .exn, .res [3]]
    1 rfl⟩

/-! ## Account/chunk pairing (`main.py` 960-989; `index.py` 268-290)

`num_to_process = min(len(accounts), len(batches))`, then
`for i in range(num_to_process)` pair `accounts[i]` with `batches[i]`
(as a scheduled `process_batch` task in `main.py`, as a sequential loop
iteration in `index.py`).  Chunks beyond `num_to_process` are never
dispatched; the loops emit no diagnostic about them. -/

/-- The pairing loop: walk both lists in lockstep, stopping at the
shorter — exactly the pairs `(accounts[i], batches[i])` for
`i < min(len(accounts), len(batches))`. -/
def make_tasks {A W : Type} : List A → List W → List (A × W)
  | a :: accs, b :: chunks => (a, b) :: make_tasks accs chunks
  | _, _ => []

/-- The orchestrated run after all pipelines have reached terminal
state: each scheduled (account, chunk) task yields a terminal
`BatchOutcome` (given here as `exec`, the dispatch-and-poll pipeline
being out of the aggregation's scope), and the outcomes are folded by
the aggregation loop. -/
def run_batches {A W ρ : Type} (accounts : List A) (batches : List W)
    (exec : A × W → BatchOutcome ρ) : List ρ × Nat :=
  aggregate ((make_tasks accounts batches).map exec)

theorem make_tasks_take {A W : Type} :
    ∀ (accounts : List A) (batches : List W),
      make_tasks accounts (batches.take accounts.length) =
        make_tasks accounts batches := by
  intro accounts
  induction accounts with
  | nil => intro batches; cases batches <;> rfl
  | cons a accs ih =>
    intro batches
    cases batches with
    | nil => rfl
    | cons b chunks =>
      simp only [List.length_cons, List.take_succ_cons, make_tasks, ih]

/-- C10: exactly `min(#accounts, #chunks)` batches are dispatched,
pairing account `i` with chunk `i`; the dispatched chunks are precisely
the first `min(#accounts, #chunks)` chunks, so the trailing chunks — and
every work item in them — are never dispatched, and the aggregate of the
run is unchanged when they are removed outright (they contribute
nothing, with no diagnostic tied to them). -/
theorem c10_account_chunk_pairing {A W ρ : Type}
    (accounts : List A) (batches : List W)
    (exec : A × W → BatchOutcome ρ) :
    (make_tasks accounts batches).length =
      min accounts.length batches.length ∧
    (∀ i a b, accounts.get? i = some a → batches.get? i = some b →
      (make_tasks accounts batches).get? i = some (a, b)) ∧
    (make_tasks accounts batches).map Prod.snd =
      batches.take (min accounts.length batches.length) ∧
    run_batches accounts batches exec =
      run_batches accounts (batches.take accounts.length) exec := by
  refine ⟨?_, ?_, ?_, ?_⟩
  · clear exec
    induction accounts generalizing batches with
    | nil => cases batches <;> simp [make_tasks]
    | cons a accs ih =>
      cases batches with
      | nil => simp [make_tasks]
      | cons b chunks =>
        simp only [make_tasks, List.length_cons, ih chunks]
        omega
  · clear exec
    induction accounts generalizing batches with
    | nil => intro i a b h; simp at h
    | cons x accs ih =>
      intro i a b ha hb
      cases batches with
      | nil => simp at hb
      | cons y chunks =>
        cases i with
        | zero =>
          have hx : x = a := by simpa using ha
          have hy : y = b := by simpa using hb
          simp [make_tasks, hx, hy]
        | succ i =>
          have ha' : accs.get? i = some a := by simpa using ha
          have hb' : chunks.get? i = some b := by simpa using hb
          simpa [make_tasks] using ih chunks i a b ha' hb'
  · clear exec
    induction accounts generalizing batches with
    | nil => cases batches <;> simp [make_tasks]
    | cons a accs ih =>
      cases batches with
      | nil => simp [make_tasks]
      | cons b chunks =>
        simp only [make_tasks, List.map_cons, ih chunks, List.length_cons]
        rw [show (accs.length + 1) ⊓ (chunks.length + 1) =
          accs.length ⊓ chunks.length + 1 by omega, List.take_succ_cons]
  · rw [run_batches, run_batches, make_tasks_take]

theorem c10_account_chunk_pairing_witness :
    (make_tasks ["acct1", "acct2"] [[10], [20], [30]]).get? 1 =
      some ("acct2", [20]) ∧
    (make_tasks ["acct1", "acct2"] [[10], [20], [30]]).map Prod.snd =
      [[10], [20]] :=
  ⟨(c10_account_chunk_pairing ["acct1", "acct2"] [[10], [20], [30]]
      (fun _ => (BatchOutcome.exn : BatchOutcome Nat))).2.1 1 "acct2" [20]
      rfl rfl,
   (c10_account_chunk_pairing ["acct1", "acct2"] [[10], [20], [30]]
      (fun _ => (BatchOutcome.exn : BatchOutcome Nat))).2.2.1⟩

/-! ## Concurrency Controller (`process_batch`, `main.py` 942-958, under
`asyncio.Semaphore(CONFIG["concurrency"]["max_concurrent_batches"])`,
`main.py` 968)

```
async def process_batch(..., semaphore):
    async with semaphore:
        await asyncio.sleep(random.uniform(*delay_range))   # delaying
        batch_id = await start_scraping_async(...)          # dispatching
        if not batch_id: return []                          # done (failed start)
        return await wait_for_batch_completion(...)         # polling, then done
```

The cooperative interleaving of the `K` scheduled pipelines is modelled
as a small-step transition relation on the list of per-pipeline phases.
`async with semaphore` acquires a slot before the pre-dispatch delay and
releases it when the body exits — normally or by exception — i.e. when
the pipeline reaches a terminal state.  A semaphore of capacity `C`
admits an acquire only while fewer than `C` holders exist. -/

/-- The phase of one batch pipeline: not yet admitted; holding a slot
during the pre-dispatch delay, the dispatch, or the completion polling;
or terminal (slot released). -/
inductive Phase where
  | waiting
  | delaying
  | dispatching
  | polling
  | done
  deriving DecidableEq

/-- Does the phase hold a semaphore slot (the dispatch/poll span of
`async with semaphore`)? -/
def inGate : Phase → Bool
  | .delaying => true
  | .dispatching => true
  | .polling => true
  | _ => false

/-- Number of pipelines currently inside the admission gate. -/
def activeCount (s : List Phase) : Nat := s.countP inGate

/-- One scheduler step of the concurrent run under semaphore capacity
`C`: a waiting pipeline may acquire a slot only while fewer than `C` are
active; an admitted pipeline moves through delay → dispatch →
(failed-start termination | polling) → termination, releasing the slot
exactly when it leaves the `async with` body. -/
inductive SemStep (C : Nat) : List Phase → List Phase → Prop
  | acquire (s : List Phase) (i : Nat) (h : s.get? i = some .waiting)
      (hcap : activeCount s < C) : SemStep C s (s.set i .delaying)
  | beginDispatch (s : List Phase) (i : Nat)
      (h : s.get? i = some .delaying) : SemStep C s (s.set i .dispatching)
  | dispatchFailed (s : List Phase) (i : Nat)
      (h : s.get? i = some .dispatching) : SemStep C s (s.set i .done)
  | beginPolling (s : List Phase) (i : Nat)
      (h : s.get? i = some .dispatching) : SemStep C s (s.set i .polling)
  | finish (s : List Phase) (i : Nat)
      (h : s.get? i = some .polling) : SemStep C s (s.set i .done)

/-- All `K` scheduled pipelines start outside the gate. -/
def init_pipelines (K : Nat) : List Phase := List.replicate K .waiting

/-- States the concurrent run can reach from the initial state. -/
def Reachable (C K : Nat) (s : List Phase) : Prop :=
  Relation.ReflTransGen (SemStep C) (init_pipelines K) s

theorem countP_set_balance {β : Type} (p : β → Bool) :
    ∀ (l : List β) (i : Nat) (a b : β), l.get? i = some a →
      (l.set i b).countP p + (if p a then 1 else 0) =
        l.countP p + (if p b then 1 else 0) := by
  intro l
  induction l with
  | nil => intro i a b h; simp at h
  | cons x xs ih =>
    intro i a b h
    cases i with
    | zero =>
      have hx : x = a := by simpa using h
      subst hx
      simp only [List.set, List.countP_cons]
      omega
    | succ i =>
      have h' : xs.get? i = some a := by simpa using h
      have := ih i a b h'
      simp only [List.set, List.countP_cons]
      omega

theorem activeCount_le_of_step {C : Nat} {s t : List Phase}
    (h : SemStep C s t) (hs : activeCount s ≤ C) : activeCount t ≤ C := by
  cases h with
  | acquire i hget hcap =>
    have hb := countP_set_balance inGate s i .waiting .delaying hget
    simp [inGate] at hb
    unfold activeCount at *
    omega
  | beginDispatch i hget =>
    have hb := countP_set_balance inGate s i .delaying .dispatching hget
    unfold activeCount at *
    simp [inGate] at hb
    omega
  | dispatchFailed i hget =>
    have hb := countP_set_balance inGate s i .dispatching .done hget
    unfold activeCount at *
    simp [inGate] at hb
    omega
  | beginPolling i hget =>
    have hb := countP_set_balance inGate s i .dispatching .polling hget
    unfold activeCount at *
    simp [inGate] at hb
    omega
  | finish i hget =>
    have hb := countP_set_balance inGate s i .polling .done hget
    unfold activeCount at *
    simp [inGate] at hb
    omega

/-- C8: with `K` schedulable pipelines under semaphore capacity `C < K`,
in every reachable state of the run at most `C` pipelines are inside the
dispatch/poll span: each acquires its slot before its pre-dispatch delay
and releases it only on reaching a terminal state, so the count of
concurrently active pipelines never exceeds `C`. -/
theorem c8_concurrency_cap (C K : Nat) (hCK : C < K) (s : List Phase)
    (h : Reachable C K s) : activeCount s ≤ C := by
  induction h with
  | refl =>
    have hz : ∀ a ∈ init_pipelines K, ¬ inGate a = true := by
      intro a ha
      rw [List.eq_of_mem_replicate ha]
      simp [inGate]
    unfold activeCount
    rw [List.countP_eq_zero.mpr hz]
    omega
  | tail _ hstep ih => exact activeCount_le_of_step hstep ih

theorem c8_concurrency_cap_witness :
    (1 : Nat) < 2 ∧
    Reachable 1 2 [Phase.delaying, Phase.waiting] ∧
    activeCount [Phase.delaying, Phase.waiting] ≤ 1 := by
  have hstep : SemStep 1 (init_pipelines 2) [Phase.delaying, Phase.waiting] :=
    SemStep.acquire (init_pipelines 2) 0 rfl (by decide)
  have hreach : Reachable 1 2 [Phase.delaying, Phase.waiting] :=
    Relation.ReflTransGen.single hstep
  exact ⟨by decide, hreach, c8_concurrency_cap 1 2 (by decide) _ hreach⟩

end LinkedinScraper
